import Mathlib

/-!
# Service-worker caching (`sw-template.js`) and the map-data batch (`node/generate-all-maps.js`)

A shallow embedding of the two scripts:

* JavaScript values that can occur in the injected `self.__WB_RUNTIME_MANIFEST`, array
  destructuring, `Array.prototype.map` and `new Map(...)`, giving `runtimeManifest`;
* the `RevisionCacheFirst` strategy (`_handle`, `activate`) as state passing over a `World`
  holding the cache storage and a trace of the effects performed;
* the two `registerRoute` calls and the dispatch over them;
* the `Object.assign` merge loop of `generate-all-maps.js`.

Code of the workbox library (the strategy handler, `createCacheKey`, the router, `CacheFirst`) is
not part of the repository sources; each such definition says so in its doc comment.
-/

set_option autoImplicit false

deriving instance DecidableEq for Except

namespace SW

/-! ## Insertion-ordered string-keyed dictionaries (JS `Map`, plain objects, `Cache`) -/

/-- String-keyed dictionary kept in insertion order. -/
abbrev Dict (V : Type) := List (String × V)

/-- Lookup of a key: `Map.prototype.get` / property read, `none` when the key is absent. -/
def Dict.get? {V : Type} : Dict V → String → Option V
  | [], _ => none
  | (k, v) :: t, key => if k = key then some v else Dict.get? t key

/-- Membership test of a key: `Map.prototype.has`. -/
def Dict.has {V : Type} (m : Dict V) (key : String) : Bool :=
  (Dict.get? m key).isSome

/-- Write of a key: `Map.prototype.set` / property assignment / `cache.put`. An existing key
keeps its position and gets the new value; a new key is added at the end. -/
def Dict.set {V : Type} : Dict V → String → V → Dict V
  | [], key, val => [(key, val)]
  | (k, v) :: t, key, val => if k = key then (k, val) :: t else (k, v) :: Dict.set t key val

/-- The keys of a dictionary, in order. -/
def Dict.keys {V : Type} (m : Dict V) : List String :=
  m.map Prod.fst

/-! ## The injected runtime manifest -/

/-- A JavaScript primitive value. Of the numbers only the non-negative safe integers
(`0` to `2^53 - 1`) are represented: each is exactly a Number value, and its `ToString` is its
decimal numeral. Other numbers, objects and nested arrays are not represented. -/
inductive JsPrim
  | undefined
  | null
  | bool (b : Bool)
  | num (n : Fin 9007199254740992)
  | str (s : String)
  deriving DecidableEq, Repr

/-- JS `ToString`, as a template literal applies it to an interpolated value. -/
def JsPrim.toStr : JsPrim → String
  | .undefined => "undefined"
  | .null => "null"
  | .bool true => "true"
  | .bool false => "false"
  | .num n => toString n.val
  | .str s => s

/-- JS truthiness (`!revision` is `true` exactly on the falsy values). -/
def JsPrim.truthy : JsPrim → Bool
  | .undefined => false
  | .null => false
  | .bool b => b
  | .num n => n.val != 0
  | .str s => s != ""

/-- An element of `self.__WB_RUNTIME_MANIFEST`: a primitive or an array of primitives. -/
inductive JsItem
  | prim (p : JsPrim)
  | arr (xs : List JsPrim)
  deriving DecidableEq, Repr

/-- The values a manifest element yields when it is iterated, `none` when it is not iterable:
an array yields its elements, a string its code points (each as a one-character string);
`undefined`, `null`, booleans and numbers are not iterable. -/
def iterate : JsItem → Option (List JsPrim)
  | .arr xs => some xs
  | .prim (.str s) => some (s.data.map (fun c => JsPrim.str (String.singleton c)))
  | .prim _ => none

/-- The parameter pattern `([route, revision])` of the arrow function at `sw-template.js:87-90`:
array destructuring takes the first two values the argument yields when iterated (`undefined`
where there are too few) and throws a `TypeError` on a value that is not iterable. -/
def destructurePair (item : JsItem) : Except String (JsPrim × JsPrim) :=
  match iterate item with
  | some vs => .ok (vs.getD 0 .undefined, vs.getD 1 .undefined)
  | none => .error "TypeError"

/-- The arrow function of `sw-template.js:87-94`:
`([route, revision]) => [origin + "/" + route, revision]` (a template literal). -/
def manifestEntry (origin : String) (item : JsItem) : Except String (String × JsPrim) :=
  match destructurePair item with
  | .error e => .error e
  | .ok (route, revision) => .ok (origin ++ "/" ++ route.toStr, revision)

/-- `Array.prototype.map` with a callback that may throw: elements are visited in order and the
first exception aborts the whole call. -/
def arrayMap {α β : Type} (f : α → Except String β) : List α → Except String (List β)
  | [] => .ok []
  | x :: xs =>
    match f x with
    | .error e => .error e
    | .ok y =>
      match arrayMap f xs with
      | .error e => .error e
      | .ok ys => .ok (y :: ys)

/-- `new Map(entries)`: every `[key, value]` entry is `set` in order on an empty map. -/
def newMap {V : Type} (entries : List (String × V)) : Dict V :=
  entries.foldl (fun m e => Dict.set m e.1 e.2) []

/-- The constant `runtimeManifest` of `sw-template.js:86-95`, as a function of
`self.location.origin` and `self.__WB_RUNTIME_MANIFEST`. -/
def runtimeManifest (origin : String) (wbRuntimeManifest : List JsItem) :
    Except String (Dict JsPrim) :=
  match arrayMap (manifestEntry origin) wbRuntimeManifest with
  | .error e => .error e
  | .ok entries => .ok (newMap entries)

/-- `runtimeManifest.get(url)`: `undefined` when the key is absent. -/
def manifestGet (m : Dict JsPrim) (url : String) : JsPrim :=
  (Dict.get? m url).getD .undefined

/-- A well-formed injected pair `[route, revision]` of two strings, as an array value. -/
def pairItem (p : String × String) : JsItem :=
  .arr [.str p.1, .str p.2]

/-- Specification side (not in the source): the spec's notion of a well-formed manifest element,
a two-element array of strings. -/
def specWellFormed : JsItem → Bool
  | .arr [.str _, .str _] => true
  | _ => false

/-- The entry written for a manifest element whose iteration yields `vs`: the key is the
origin, a slash and the first value stringified; the value is the second value. -/
def entryOfValues (origin : String) (vs : List JsPrim) : String × JsPrim :=
  (origin ++ "/" ++ (vs.getD 0 .undefined).toStr, vs.getD 1 .undefined)

/-! ## Requests, responses and the cache storage -/

/-- A `Response`, reduced to its status and body. -/
structure Response where
  status : Nat
  body : String
  deriving DecidableEq, Repr

/-- `Response.prototype.clone`: an independent copy with the same content. -/
def Response.clone (r : Response) : Response :=
  { status := r.status, body := r.body }

/-- A `Request`, reduced to the two properties the route predicates and the strategy read. -/
structure Request where
  url : String
  destination : String
  deriving DecidableEq, Repr

/-- The strategies registered by `sw-template.js`. -/
inductive Strategy
  | revisionCacheFirst
  | cacheFirst
  deriving DecidableEq, Repr

/-- Observable effects, recorded in the order they happen. -/
inductive Effect
  | handle (strategy : Strategy)
  | cacheRead (cacheName key : String)
  | cacheWrite (cacheName key : String)
  | fetch (url : String)
  deriving DecidableEq, Repr

/-- The state of the worker's surroundings: the `CacheStorage` (cache name to cache, a cache
being a mapping from cache key to stored response) and the trace of effects so far. -/
structure World where
  caches : Dict (Dict Response)
  trace : List Effect
  deriving DecidableEq, Repr

/-- The content of the cache partition `cacheName` (empty when the cache does not exist). -/
def World.partition (w : World) (cacheName : String) : Dict Response :=
  (Dict.get? w.caches cacheName).getD []

/-- Whether an effect is a network fetch. -/
def Effect.isFetch : Effect → Bool
  | .fetch _ => true
  | _ => false

/-- The fetch-call counter: the number of network fetches issued so far. -/
def World.fetchCalls (w : World) : Nat :=
  (w.trace.filter Effect.isFetch).length

/-- The network: what a fetch of a request yields, a response or a transport failure. -/
abbrev Network := Request → Except String Response

/-- Modelled from the spec: `handler.cacheMatch(key)` of the workbox `StrategyHandler` (library
code, not in the sources): a read of the strategy's partition under the key, `none` standing for
`undefined`. It creates nothing and changes no cache. -/
def cacheMatch (cacheName key : String) (w : World) : Option Response × World :=
  (Dict.get? (w.partition cacheName) key,
    { w with trace := w.trace ++ [.cacheRead cacheName key] })

/-- Modelled from the spec: `handler.fetch(request)` of the workbox `StrategyHandler` (library
code, not in the sources): one network fetch of the request; a transport failure rejects with
that failure. -/
def handlerFetch (net : Network) (request : Request) (w : World) :
    Except String Response × World :=
  (net request, { w with trace := w.trace ++ [.fetch request.url] })

/-- Modelled from the spec: `handler.cachePut(key, response)` of the workbox `StrategyHandler`
(library code, not in the sources): the response is written into the strategy's partition under
the key, whatever its status, replacing an entry already stored under that key. -/
def cachePut (cacheName key : String) (response : Response) (w : World) : World :=
  { caches := Dict.set w.caches cacheName (Dict.set (w.partition cacheName) key response)
    trace := w.trace ++ [.cacheWrite cacheName key] }

/-- `caches.open(cacheName)` of the platform: the cache is created, empty, when it does not
exist; the opened cache is returned. -/
def cachesOpen (cacheName : String) (w : World) : Dict Response × World :=
  match Dict.get? w.caches cacheName with
  | some cache => (cache, w)
  | none => ([], { w with caches := Dict.set w.caches cacheName [] })

/-! ## Cache keys -/

/-- The name of the revision query parameter. -/
def REVISION_SEARCH_PARAM : String := "__WB_REVISION__"

/-- Modelled from the spec: `createCacheKey({url, revision}).cacheKey` of workbox-precaching
(library code, not in the sources): "the URL with a revision query parameter appended when a
revision is present, else the bare URL". A revision is taken to be present when the value is
truthy. The parameter is appended with `?`, or with `&` when the URL already has a query. -/
def createCacheKey (url : String) (revision : JsPrim) : String :=
  if revision.truthy then
    url ++ (if url.data.contains '?' then "&" else "?")
      ++ REVISION_SEARCH_PARAM ++ "=" ++ revision.toStr
  else
    url

/-! ## `RevisionCacheFirst` (`sw-template.js:32-79`) -/

/-- The cache name given to `super` by the constructor (`sw-template.js:34`). -/
def RevisionCacheFirst.cacheName : String := "runtime-revision"

/-- The method `_handle` of `sw-template.js:45-63`. The result is the settled value of the
returned promise: `.ok` a response, or `.error` the rejection. -/
def RevisionCacheFirst._handle (runtimeManifest : Dict JsPrim) (net : Network)
    (request : Request) (w : World) : Except String Response × World :=
  let url := request.url
  let cacheKey := createCacheKey url (manifestGet runtimeManifest url)
  let (cacheResponse, w1) := cacheMatch RevisionCacheFirst.cacheName cacheKey w
  match cacheResponse with
  | some response => (.ok response, w1)
  | none =>
    let (fetched, w2) := handlerFetch net request w1
    match fetched with
    | .error e => (.error e, w2)
    | .ok fetchResponse =>
      let w3 := cachePut RevisionCacheFirst.cacheName cacheKey fetchResponse.clone w2
      (.ok fetchResponse, w3)

/-- The function `waitUntil` of `sw-template.js:15-22`: runs `asyncFn`, hands its promise to
`event.waitUntil` (which only extends the event's lifetime) and returns it. -/
def waitUntil (asyncFn : World → World) (w : World) : World :=
  asyncFn w

/-- The method `activate` of `sw-template.js:74-78`: the async function opens the cache, binds
it to `cache`, and ends. -/
def RevisionCacheFirst.activate (w : World) : World :=
  waitUntil (fun w0 =>
    let (_cache, w1) := cachesOpen RevisionCacheFirst.cacheName w0
    w1) w

/-- Specification side (not in the source): whether reconciliation has to keep the entry
stored under `key`, that is, whether `key` is the cache key of a manifest URL at that URL's
current revision. -/
def specKeeps (runtimeManifest : Dict JsPrim) (key : String) : Bool :=
  (Dict.keys runtimeManifest).any
    (fun url => createCacheKey url (manifestGet runtimeManifest url) == key)

/-! ## Routing (`sw-template.js:97-116`) -/

/-- A registered rule: a match callback and the strategy handling the matched requests. -/
structure Route where
  matcher : Request → Bool
  handler : Strategy

/-- Modelled from the spec: `registerRoute(match, handler)` of workbox-routing (library code, not
in the sources) "appends a rule". -/
def registerRoute (routes : List Route) (matcher : Request → Bool) (handler : Strategy) :
    List Route :=
  routes ++ [{ matcher := matcher, handler := handler }]

/-- The set `cacheSet` of `sw-template.js:115`. -/
def cacheSet : List String := ["font", "image"]

/-- The rules after the two `registerRoute` calls of `sw-template.js:99-102` and `:116`. -/
def routes (runtimeManifest : Dict JsPrim) : List Route :=
  let r0 : List Route := []
  let r1 := registerRoute r0 (fun request => Dict.has runtimeManifest request.url)
    .revisionCacheFirst
  registerRoute r1 (fun request => cacheSet.contains request.destination) .cacheFirst

/-- Modelled from the spec: the `CacheFirst` strategy of workbox-strategies (library code, not in
the sources): on a hit in its own partition return it; on a miss fetch, store under the bare
URL, return. -/
def CacheFirst._handle (cacheName : String) (net : Network) (request : Request) (w : World) :
    Except String Response × World :=
  let (cacheResponse, w1) := cacheMatch cacheName request.url w
  match cacheResponse with
  | some response => (.ok response, w1)
  | none =>
    let (fetched, w2) := handlerFetch net request w1
    match fetched with
    | .error e => (.error e, w2)
    | .ok fetchResponse => (.ok fetchResponse, cachePut cacheName request.url fetchResponse.clone w2)

/-- What the worker is instantiated with: the built `runtimeManifest`, the name of the default
partition the `CacheFirst` strategy uses, and the network. -/
structure Worker where
  runtimeManifest : Dict JsPrim
  runtimeCacheName : String
  net : Network

/-- Invocation of a strategy's handler on a request. -/
def Strategy.run (sw : Worker) : Strategy → Request → World → Except String Response × World
  | .revisionCacheFirst, request, w =>
    RevisionCacheFirst._handle sw.runtimeManifest sw.net request w
  | .cacheFirst, request, w => CacheFirst._handle sw.runtimeCacheName sw.net request w

/-- Modelled from the spec: the workbox router (library code, not in the sources): the rules
are evaluated in registration order and the first whose predicate matches is chosen. -/
def findMatchingRoute (routes : List Route) (request : Request) : Option Strategy :=
  match routes with
  | [] => none
  | r :: rest => if r.matcher request then some r.handler else findMatchingRoute rest request

/-- Modelled from the spec: `dispatch(request) -> Response | unhandled` over the rules the
script registers: the chosen strategy's handler is invoked (recorded in the trace); `none` is
"unhandled", with nothing done. -/
def dispatch (sw : Worker) (request : Request) (w : World) :
    Option (Except String Response) × World :=
  match findMatchingRoute (routes sw.runtimeManifest) request with
  | none => (none, w)
  | some strategy =>
    let (result, w1) := strategy.run sw request { w with trace := w.trace ++ [.handle strategy] }
    (some result, w1)

/-! ## `node/generate-all-maps.js` -/

/-- `Object.assign(target, source)`: for every own key of the source, in order, the source's
value of the key is assigned to the target. -/
def objectAssign {V : Type} (target source : Dict V) : Dict V :=
  (Dict.keys source).foldl
    (fun t key =>
      match Dict.get? source key with
      | some v => Dict.set t key v
      | none => t)
    target

/-- An index entry (`head`), reduced to its `id`. -/
structure Head where
  id : String
  deriving DecidableEq, Repr

/-- One element of the array literal of `generate-all-maps.js:10-21`. -/
structure Source where
  prop : String
  index : String
  dir : String
  deriving DecidableEq, Repr

/-- The array literal of `generate-all-maps.js:10-21`: adventures, then books. -/
def sources : List Source :=
  [ { prop := "adventure", index := "./data/adventures.json", dir := "./data/adventure" },
    { prop := "book", index := "./data/books.json", dir := "./data/book" } ]

/-- What the script reads from outside: `ut.readJson(index)[prop]`, `ut.readJson(path).data`,
`String.prototype.toLowerCase` and `MapsUtil.getImageData` (`none` for a falsy result). None of
them is in the sources. -/
structure MapsEnv (Body V : Type) where
  readIndex : String → String → List Head
  readBody : String → Body
  toLowerCase : String → String
  getImageData : String → Head → Body → Option (Dict V)

/-- The image data of one index entry (`generate-all-maps.js:24-25`). -/
def imageDataOf {Body V : Type} (env : MapsEnv Body V) (src : Source) (head : Head) :
    Option (Dict V) :=
  let body := env.readBody (src.dir ++ "/" ++ src.prop ++ "-" ++ env.toLowerCase head.id ++ ".json")
  env.getImageData src.prop head body

/-- Line 26 of `generate-all-maps.js`: `if (imageData) Object.assign(out, imageData)`. -/
def assignIfTruthy {V : Type} (out : Dict V) (imageData : Option (Dict V)) : Dict V :=
  match imageData with
  | some data => objectAssign out data
  | none => out

/-- The loop body of `generate-all-maps.js:22-27`, on the accumulator `out`. -/
def mergeHead {Body V : Type} (env : MapsEnv Body V) (src : Source) (out : Dict V) (head : Head) :
    Dict V :=
  let imageData := imageDataOf env src head
  assignIfTruthy out imageData

/-- The object `out` that `generate-all-maps.js:30` serialises, after both loops. -/
def generateAllMaps {Body V : Type} (env : MapsEnv Body V) : Dict V :=
  sources.foldl
    (fun out src => (env.readIndex src.index src.prop).foldl (mergeHead env src) out)
    []

/-- Specification side (not in the source): the image-data results of all index entries, in
the order the script visits them (adventures first, then books). -/
def imageDataResults {Body V : Type} (env : MapsEnv Body V) : List (Option (Dict V)) :=
  sources.flatMap (fun src => (env.readIndex src.index src.prop).map (imageDataOf env src))

/-! ## Dictionary lemmas -/

theorem Dict.get?_set_self {V : Type} (m : Dict V) (key : String) (val : V) :
    Dict.get? (Dict.set m key val) key = some val := by
  induction m with
  | nil => simp [Dict.set, Dict.get?]
  | cons e t ih =>
    obtain ⟨k, v⟩ := e
    by_cases hk : k = key
    · simp [Dict.set, Dict.get?, hk]
    · simp [Dict.set, Dict.get?, hk, ih]

theorem Dict.get?_set_ne {V : Type} (m : Dict V) (key other : String) (val : V)
    (h : other ≠ key) : Dict.get? (Dict.set m key val) other = Dict.get? m other := by
  induction m with
  | nil =>
    have h2 : ¬ key = other := fun e => h e.symm
    simp [Dict.set, Dict.get?, h2]
  | cons e t ih =>
    obtain ⟨k, v⟩ := e
    by_cases hk : k = key
    · subst hk
      have h2 : ¬ k = other := fun e => h e.symm
      simp [Dict.set, Dict.get?, h2]
    · by_cases hko : k = other
      · subst hko
        simp [Dict.set, Dict.get?, hk]
      · simp [Dict.set, Dict.get?, hk, hko, ih]

theorem Dict.set_of_absent {V : Type} (m : Dict V) (key : String) (val : V)
    (h : Dict.get? m key = none) : Dict.set m key val = m ++ [(key, val)] := by
  induction m with
  | nil => rfl
  | cons e t ih =>
    obtain ⟨k, v⟩ := e
    by_cases hk : k = key
    · simp [Dict.get?, hk] at h
    · simp only [Dict.get?, hk, if_false] at h
      simp [Dict.set, hk, ih h]

theorem Dict.mem_keys_iff {V : Type} (m : Dict V) (key : String) :
    key ∈ Dict.keys m ↔ Dict.has m key = true := by
  induction m with
  | nil => simp [Dict.keys, Dict.has, Dict.get?]
  | cons e t ih =>
    obtain ⟨k, v⟩ := e
    by_cases hk : k = key
    · simp [Dict.keys, Dict.has, Dict.get?, hk]
    · have hk2 : ¬ key = k := fun e => hk e.symm
      simp only [Dict.keys, Dict.has] at ih
      simp [Dict.keys, Dict.has, Dict.get?, hk, hk2, ih]

theorem Dict.has_of_get? {V : Type} (m : Dict V) (key : String) (v : V)
    (h : Dict.get? m key = some v) : Dict.has m key = true := by
  simp [Dict.has, h]

/-- A run of writes to other keys does not change what is stored under `key`. -/
theorem Dict.get?_foldl_set_other {V : Type} (entries : List (String × V)) (init : Dict V)
    (key : String) (h : ∀ e ∈ entries, e.1 ≠ key) :
    Dict.get? (entries.foldl (fun m e => Dict.set m e.1 e.2) init) key = Dict.get? init key := by
  induction entries generalizing init with
  | nil => rfl
  | cons e t ih =>
    simp only [List.foldl_cons]
    rw [ih _ (fun e' he' => h e' (List.mem_cons_of_mem _ he'))]
    exact Dict.get?_set_ne _ _ _ _ (fun heq => h e (List.mem_cons_self _ _) heq.symm)

/-- In `new Map(entries)` the last entry written under a key is the one stored. -/
theorem newMap_get?_last {V : Type} (pre post : List (String × V)) (key : String) (val : V)
    (h : ∀ e ∈ post, e.1 ≠ key) :
    Dict.get? (newMap (pre ++ (key, val) :: post)) key = some val := by
  unfold newMap
  rw [List.foldl_append, List.foldl_cons, Dict.get?_foldl_set_other _ _ _ h]
  exact Dict.get?_set_self _ _ _

/-! ## Lemmas on the manifest construction -/

theorem arrayMap_ok_of_forall {α β : Type} (f : α → Except String β) (g : α → β)
    (xs : List α) (h : ∀ x ∈ xs, f x = .ok (g x)) : arrayMap f xs = .ok (xs.map g) := by
  induction xs with
  | nil => rfl
  | cons x t ih =>
    have hx := h x (List.mem_cons_self _ _)
    have ht := ih (fun y hy => h y (List.mem_cons_of_mem _ hy))
    simp [arrayMap, hx, ht]

theorem arrayMap_error_of_exists {α β : Type} (f : α → Except String β) (err : String)
    (xs : List α) (hall : ∀ x e, f x = .error e → e = err) (h : ∃ x ∈ xs, f x = .error err) :
    arrayMap f xs = .error err := by
  induction xs with
  | nil => simp at h
  | cons x t ih =>
    cases hx : f x with
    | error e => simp [arrayMap, hx, hall x e hx]
    | ok y =>
      obtain ⟨z, hz, hfz⟩ := h
      rcases List.mem_cons.mp hz with rfl | hzt
      · rw [hx] at hfz; cases hfz
      · simp [arrayMap, hx, ih ⟨z, hzt, hfz⟩]

theorem manifestEntry_error (origin : String) (item : JsItem) (e : String)
    (h : manifestEntry origin item = .error e) : e = "TypeError" := by
  unfold manifestEntry destructurePair at h
  cases hit : iterate item with
  | none =>
    rw [hit] at h
    cases h
    rfl
  | some vs =>
    rw [hit] at h
    cases h

theorem manifestEntry_of_not_iterable (origin : String) (item : JsItem)
    (h : iterate item = none) : manifestEntry origin item = .error "TypeError" := by
  unfold manifestEntry destructurePair
  rw [h]

theorem manifestEntry_of_iterable (origin : String) (item : JsItem) (vs : List JsPrim)
    (h : iterate item = some vs) :
    manifestEntry origin item = .ok (entryOfValues origin vs) := by
  unfold manifestEntry destructurePair
  rw [h]
  rfl

theorem manifestEntry_of_all_iterable (origin : String) (item : JsItem)
    (h : iterate item ≠ none) :
    manifestEntry origin item = .ok (entryOfValues origin ((iterate item).getD [])) := by
  cases hit : iterate item with
  | none => exact absurd hit h
  | some vs => exact manifestEntry_of_iterable origin item vs hit

theorem string_append_left_cancel (s t u : String) (h : s ++ t = s ++ u) : t = u := by
  have h2 := congrArg String.data h
  simp only [String.data_append] at h2
  exact String.ext (List.append_cancel_left h2)

theorem string_append_right_cancel (s t u : String) (h : s ++ u = t ++ u) : s = t := by
  have h2 := congrArg String.data h
  simp only [String.data_append] at h2
  exact String.ext (List.append_cancel_right h2)

theorem Dict.has_set {V : Type} (m : Dict V) (key other : String) (val : V) :
    Dict.has (Dict.set m key val) other = true ↔ other = key ∨ Dict.has m other = true := by
  by_cases h : other = key
  · subst h
    simp [Dict.has, Dict.get?_set_self]
  · simp [Dict.has, Dict.get?_set_ne _ _ _ _ h, h]

/-- The keys of `new Map(entries)` are exactly the keys of the entries. -/
theorem has_foldl_set {V : Type} (entries : List (String × V)) (init : Dict V) (key : String) :
    Dict.has (entries.foldl (fun m e => Dict.set m e.1 e.2) init) key = true
      ↔ Dict.has init key = true ∨ ∃ e ∈ entries, e.1 = key := by
  induction entries generalizing init with
  | nil => simp
  | cons e t ih =>
    rw [List.foldl_cons, ih, Dict.has_set]
    constructor
    · rintro ((h | h) | ⟨e2, he2, hk⟩)
      · exact Or.inr ⟨e, List.mem_cons_self _ _, h.symm⟩
      · exact Or.inl h
      · exact Or.inr ⟨e2, List.mem_cons_of_mem _ he2, hk⟩
    · rintro (h | ⟨e2, he2, hk⟩)
      · exact Or.inl (Or.inr h)
      · rcases List.mem_cons.mp he2 with heq | hmem
        · exact Or.inl (Or.inl (by rw [← hk, heq]))
        · exact Or.inr ⟨e2, hmem, hk⟩

/-- What building the manifest yields when every element is iterable. -/
theorem runtimeManifest_of_all_iterable (origin : String) (items : List JsItem)
    (h : ∀ it ∈ items, iterate it ≠ none) :
    runtimeManifest origin items
      = .ok (newMap (items.map (fun it => entryOfValues origin ((iterate it).getD [])))) := by
  have hmap : arrayMap (manifestEntry origin) items
      = .ok (items.map (fun it => entryOfValues origin ((iterate it).getD []))) :=
    arrayMap_ok_of_forall _ _ _
      (fun it hit => manifestEntry_of_all_iterable origin it (h it hit))
  rw [runtimeManifest, hmap]

/-! ## C6: what `runtimeManifest.get` returns for an injected pair -/

/-- C6 (as stated, refuted): with origin `https://example.com` and the injected list
`[["index.html", "abc"]]`, `runtimeManifest.get(origin + route)` is `undefined`, not the
revision, because the key is built with a slash between origin and route; and with the list
`[["a", "1"], ["a", "2"]]` the pair `("a", "1")` is in the list but the value stored under its
key is `"2"`. -/
theorem runtimeManifest_get_origin_route_counterexample :
    (runtimeManifest "https://example.com" [pairItem ("index.html", "abc")]
        = .ok [("https://example.com/index.html", .str "abc")]
      ∧ manifestGet [("https://example.com/index.html", .str "abc")]
          ("https://example.com" ++ "index.html") = .undefined
      ∧ JsPrim.undefined ≠ .str "abc")
    ∧ (runtimeManifest "https://example.com" [pairItem ("a", "1"), pairItem ("a", "2")]
        = .ok [("https://example.com/a", .str "2")]
      ∧ manifestGet [("https://example.com/a", .str "2")] ("https://example.com" ++ "/" ++ "a")
          = .str "2"
      ∧ JsPrim.str "2" ≠ .str "1") := by
  decide

/-- C6 (amended): for every injected list of (route, revision) string pairs and every pair of
the list whose route no later pair repeats, the built `runtimeManifest` has the key
`origin + "/" + route` and `get` of that key is the pair's revision. -/
theorem runtimeManifest_get_of_last_pair (origin : String) (pre post : List (String × String))
    (route revision : String) (h : ∀ p ∈ post, p.1 ≠ route) :
    ∃ m, runtimeManifest origin ((pre ++ (route, revision) :: post).map pairItem) = .ok m
      ∧ Dict.has m (origin ++ "/" ++ route) = true
      ∧ manifestGet m (origin ++ "/" ++ route) = .str revision := by
  have hiter : ∀ it ∈ (pre ++ (route, revision) :: post).map pairItem, iterate it ≠ none := by
    intro it hit
    obtain ⟨p, _, rfl⟩ := List.mem_map.mp hit
    simp [pairItem, iterate]
  have hget : Dict.get? (newMap (((pre ++ (route, revision) :: post).map pairItem).map
      (fun it => entryOfValues origin ((iterate it).getD [])))) (origin ++ "/" ++ route)
      = some (.str revision) := by
    have hsplit : ((pre ++ (route, revision) :: post).map pairItem).map
        (fun it => entryOfValues origin ((iterate it).getD []))
        = (pre.map pairItem).map (fun it => entryOfValues origin ((iterate it).getD []))
          ++ (origin ++ "/" ++ route, JsPrim.str revision)
            :: (post.map pairItem).map
              (fun it => entryOfValues origin ((iterate it).getD [])) := by
      simp only [List.map_append, List.map_cons]
      rfl
    rw [hsplit]
    apply newMap_get?_last
    intro e he
    obtain ⟨it, hit, rfl⟩ := List.mem_map.mp he
    obtain ⟨p, hp, rfl⟩ := List.mem_map.mp hit
    intro heq
    have h1 : (origin ++ "/") ++ p.1 = (origin ++ "/") ++ route := heq
    exact h p hp (string_append_left_cancel _ _ _ h1)
  refine ⟨_, runtimeManifest_of_all_iterable origin _ hiter, Dict.has_of_get? _ _ _ hget, ?_⟩
  unfold manifestGet
  rw [hget]
  rfl

/-- Witness for C6 (amended): the list `[["a", "1"], ["b", "2"], ["a", "3"]]`, pair
`("b", "2")`. -/
theorem runtimeManifest_get_of_last_pair_witness :
    ∃ m, runtimeManifest "https://example.com"
        (([("a", "1")] ++ ("b", "2") :: [("a", "3")]).map pairItem) = .ok m
      ∧ Dict.has m ("https://example.com" ++ "/" ++ "b") = true
      ∧ manifestGet m ("https://example.com" ++ "/" ++ "b") = .str "2" :=
  runtimeManifest_get_of_last_pair "https://example.com" [("a", "1")] [("a", "3")] "b" "2"
    (by decide)

/-! ## C9: malformed elements of the injected manifest -/

/-- C9 (as stated, refuted): with the injected list `[["a.html", "1"], ["b.html"]]` the element
with the missing revision is not skipped: it contributes the key
`https://example.com/b.html` (mapped to `undefined`), so the result differs from the mapping
built from the well-formed pairs alone; and with the list `[["a.html", "1"], null]` the
construction throws a `TypeError` instead of loading the remaining pair. -/
theorem runtimeManifest_malformed_counterexample :
    (runtimeManifest "https://example.com"
        [.arr [.str "a.html", .str "1"], .arr [.str "b.html"]]
        = .ok [("https://example.com/a.html", .str "1"),
            ("https://example.com/b.html", .undefined)]
      ∧ runtimeManifest "https://example.com"
          ([JsItem.arr [.str "a.html", .str "1"], .arr [.str "b.html"]].filter specWellFormed)
        = .ok [("https://example.com/a.html", .str "1")]
      ∧ runtimeManifest "https://example.com"
          [.arr [.str "a.html", .str "1"], .arr [.str "b.html"]]
        ≠ runtimeManifest "https://example.com"
          ([JsItem.arr [.str "a.html", .str "1"], .arr [.str "b.html"]].filter specWellFormed))
    ∧ (runtimeManifest "https://example.com" [.arr [.str "a.html", .str "1"], .prim .null]
        = .error "TypeError"
      ∧ runtimeManifest "https://example.com"
          ([JsItem.arr [.str "a.html", .str "1"], .prim .null].filter specWellFormed)
        = .ok [("https://example.com/a.html", .str "1")]) := by
  decide

/-- C9 (amended): building `runtimeManifest` skips no element. When every element of the
injected list is iterable (an array, or a string, which yields its code points), building does
not fail; the keys of the mapping are exactly the strings `origin + "/" + ToString(first)`, one
for each element, `first` being the first value the element yields (`undefined` when it yields
none); and `get` of an element's key is the second value it yields (`undefined` when it is
missing) unless a later element writes the same key; for an array element the two values are
its components at index 0 and 1. When some element is not iterable (`undefined`, `null`, a
boolean, a number), building throws a `TypeError` and no mapping is produced. -/
theorem runtimeManifest_skips_nothing (origin : String) (items : List JsItem) :
    ((∀ it ∈ items, iterate it ≠ none) →
      ∃ m, runtimeManifest origin items = .ok m
        ∧ (∀ key, Dict.has m key = true
            ↔ ∃ it ∈ items, ∃ vs, iterate it = some vs
                ∧ key = origin ++ "/" ++ (vs.getD 0 .undefined).toStr)
        ∧ (∀ (pre post : List JsItem) (it : JsItem) (vs : List JsPrim),
            items = pre ++ it :: post → iterate it = some vs →
            (∀ it2 ∈ post, ∀ ws, iterate it2 = some ws →
              (ws.getD 0 .undefined).toStr ≠ (vs.getD 0 .undefined).toStr) →
            Dict.get? m (origin ++ "/" ++ (vs.getD 0 .undefined).toStr)
              = some (vs.getD 1 .undefined))
        ∧ (∀ (pre post : List JsItem) (xs : List JsPrim),
            items = pre ++ JsItem.arr xs :: post →
            (∀ it2 ∈ post, ∀ ws, iterate it2 = some ws →
              (ws.getD 0 .undefined).toStr ≠ (xs.getD 0 .undefined).toStr) →
            Dict.get? m (origin ++ "/" ++ (xs.getD 0 .undefined).toStr)
              = some (xs.getD 1 .undefined)))
    ∧ ((∃ it ∈ items, iterate it = none) →
        runtimeManifest origin items = .error "TypeError") := by
  constructor
  · intro hall
    have hgen : ∀ (pre post : List JsItem) (it : JsItem) (vs : List JsPrim),
        items = pre ++ it :: post → iterate it = some vs →
        (∀ it2 ∈ post, ∀ ws, iterate it2 = some ws →
          (ws.getD 0 .undefined).toStr ≠ (vs.getD 0 .undefined).toStr) →
        Dict.get? (newMap (items.map (fun it => entryOfValues origin ((iterate it).getD []))))
            (origin ++ "/" ++ (vs.getD 0 .undefined).toStr)
          = some (vs.getD 1 .undefined) := by
      intro pre post it vs hitems hvs hlater
      have hval : entryOfValues origin ((iterate it).getD [])
          = (origin ++ "/" ++ (vs.getD 0 .undefined).toStr, vs.getD 1 .undefined) := by
        rw [hvs]
        rfl
      rw [hitems, List.map_append, List.map_cons, hval]
      apply newMap_get?_last
      intro e he heq
      obtain ⟨it2, hit2, rfl⟩ := List.mem_map.mp he
      have hmem2 : it2 ∈ items := by
        rw [hitems]
        exact List.mem_append_right _ (List.mem_cons_of_mem _ hit2)
      cases hws : iterate it2 with
      | none => exact hall it2 hmem2 hws
      | some ws =>
        rw [hws] at heq
        have h1 : (origin ++ "/") ++ (ws.getD 0 .undefined).toStr
            = (origin ++ "/") ++ (vs.getD 0 .undefined).toStr := heq
        exact hlater it2 hit2 ws hws (string_append_left_cancel _ _ _ h1)
    refine ⟨_, runtimeManifest_of_all_iterable origin items hall, ?_, hgen, ?_⟩
    · intro key
      unfold newMap
      rw [has_foldl_set]
      constructor
      · rintro (h | ⟨e, he, hk⟩)
        · simp [Dict.has, Dict.get?] at h
        · obtain ⟨it, hit, rfl⟩ := List.mem_map.mp he
          cases hvs : iterate it with
          | none => exact absurd hvs (hall it hit)
          | some vs =>
            refine ⟨it, hit, vs, hvs, ?_⟩
            rw [← hk, hvs]
            rfl
      · rintro ⟨it, hit, vs, hvs, hk⟩
        refine Or.inr ⟨_, List.mem_map.mpr ⟨it, hit, rfl⟩, ?_⟩
        rw [hk, hvs]
        rfl
    · intro pre post xs hitems hlater
      exact hgen pre post (.arr xs) xs hitems rfl hlater
  · intro hex
    obtain ⟨it, hit, hnot⟩ := hex
    have herr : arrayMap (manifestEntry origin) items = .error "TypeError" :=
      arrayMap_error_of_exists _ _ _ (fun x e => manifestEntry_error origin x e)
        ⟨it, hit, manifestEntry_of_not_iterable origin it hnot⟩
    rw [runtimeManifest, herr]

/-- Witness for C9 (amended): the list `[["a.html", "1"], ["b.html"]]` is loaded whole, the
element without a revision giving the key `https://example.com/b.html` mapped to `undefined`,
and the list `[["a.html", "1"], null]` throws. -/
theorem runtimeManifest_skips_nothing_witness :
    (∃ m, runtimeManifest "https://example.com"
        [.arr [.str "a.html", .str "1"], .arr [.str "b.html"]] = .ok m
      ∧ Dict.has m "https://example.com/b.html" = true
      ∧ Dict.get? m "https://example.com/b.html" = some .undefined)
    ∧ runtimeManifest "https://example.com" [.arr [.str "a.html", .str "1"], .prim .null]
        = .error "TypeError" := by
  constructor
  · obtain ⟨m, hm, hkeys, _, harr⟩ :=
      (runtimeManifest_skips_nothing "https://example.com"
        [.arr [.str "a.html", .str "1"], .arr [.str "b.html"]]).1 (by decide)
    refine ⟨m, hm, ?_, ?_⟩
    · exact (hkeys "https://example.com/b.html").mpr
        ⟨.arr [.str "b.html"], by decide, [.str "b.html"], rfl, by decide⟩
    · exact harr [.arr [.str "a.html", .str "1"]] [] [.str "b.html"] rfl (by simp)
  · exact (runtimeManifest_skips_nothing "https://example.com"
      [.arr [.str "a.html", .str "1"], .prim .null]).2 ⟨.prim .null, by decide, by decide⟩

/-! ## Lemmas on the world and the handler primitives -/

theorem partition_cachesOpen (cacheName name : String) (w : World) :
    (cachesOpen cacheName w).2.partition name = w.partition name := by
  unfold cachesOpen
  cases hget : Dict.get? w.caches cacheName with
  | some cache => rfl
  | none =>
    by_cases hn : name = cacheName
    · subst hn
      simp [World.partition, Dict.get?_set_self, hget]
    · simp [World.partition, Dict.get?_set_ne _ _ _ _ hn]

/-- The three ways `RevisionCacheFirst._handle` can go, with the world each leaves. -/
theorem RevisionCacheFirst.handle_cases (runtimeManifest : Dict JsPrim) (net : Network)
    (request : Request) (w : World) :
    let cacheKey := createCacheKey request.url (manifestGet runtimeManifest request.url)
    (∃ stored, Dict.get? (w.partition RevisionCacheFirst.cacheName) cacheKey = some stored
        ∧ RevisionCacheFirst._handle runtimeManifest net request w
          = (.ok stored,
              { w with trace := w.trace ++ [.cacheRead RevisionCacheFirst.cacheName cacheKey] }))
    ∨ (∃ e, Dict.get? (w.partition RevisionCacheFirst.cacheName) cacheKey = none
        ∧ net request = .error e
        ∧ RevisionCacheFirst._handle runtimeManifest net request w
          = (.error e,
              { w with trace := w.trace
                  ++ [.cacheRead RevisionCacheFirst.cacheName cacheKey, .fetch request.url] }))
    ∨ (∃ fetchResponse, Dict.get? (w.partition RevisionCacheFirst.cacheName) cacheKey = none
        ∧ net request = .ok fetchResponse
        ∧ RevisionCacheFirst._handle runtimeManifest net request w
          = (.ok fetchResponse,
              { caches := Dict.set w.caches RevisionCacheFirst.cacheName
                  (Dict.set (w.partition RevisionCacheFirst.cacheName) cacheKey
                    fetchResponse.clone)
                trace := w.trace
                  ++ [.cacheRead RevisionCacheFirst.cacheName cacheKey, .fetch request.url,
                      .cacheWrite RevisionCacheFirst.cacheName cacheKey] })) := by
  intro cacheKey
  cases hget : Dict.get? (w.partition RevisionCacheFirst.cacheName) cacheKey with
  | some stored =>
    left
    refine ⟨stored, rfl, ?_⟩
    simp only [RevisionCacheFirst._handle, cacheMatch]
    rw [show Dict.get? (w.partition RevisionCacheFirst.cacheName)
      (createCacheKey request.url (manifestGet runtimeManifest request.url)) = some stored
      from hget]
  | none =>
    right
    cases hnet : net request with
    | error e =>
      left
      refine ⟨e, rfl, rfl, ?_⟩
      simp only [RevisionCacheFirst._handle, cacheMatch, handlerFetch]
      rw [show Dict.get? (w.partition RevisionCacheFirst.cacheName)
        (createCacheKey request.url (manifestGet runtimeManifest request.url)) = none
        from hget]
      simp [hnet]
    | ok fetchResponse =>
      right
      refine ⟨fetchResponse, rfl, rfl, ?_⟩
      simp only [RevisionCacheFirst._handle, cacheMatch, handlerFetch]
      rw [show Dict.get? (w.partition RevisionCacheFirst.cacheName)
        (createCacheKey request.url (manifestGet runtimeManifest request.url)) = none
        from hget]
      simp [hnet, cachePut, World.partition, cacheKey]

/-- What `activate` does for every world: no partition loses or gains an entry and nothing is
recorded in the trace. -/
theorem activate_changes_no_partition (w : World) (name : String) :
    (RevisionCacheFirst.activate w).partition name = w.partition name
      ∧ (RevisionCacheFirst.activate w).trace = w.trace := by
  constructor
  · exact partition_cachesOpen RevisionCacheFirst.cacheName name w
  · show (cachesOpen RevisionCacheFirst.cacheName w).2.trace = w.trace
    unfold cachesOpen
    cases Dict.get? w.caches RevisionCacheFirst.cacheName <;> rfl

/-! ## C1: reconciliation at activation -/

/-- C1 (the code at the failing input): the partition holds entries for `a.html` and `b.html`,
both at revision `rev1`; the manifest now lists `a.html` at `rev2` and no longer lists
`b.html`, so neither stored key is the cache key of a manifest URL at its current revision
(reconciliation has to leave the partition empty). After `activate` both entries are still
there. -/
theorem activate_keeps_stale_entries :
    ([(createCacheKey "https://example.com/a.html" (.str "rev1"), Response.mk 200 "A1"),
        (createCacheKey "https://example.com/b.html" (.str "rev1"), Response.mk 200 "B1")].filter
        (fun e => specKeeps [("https://example.com/a.html", .str "rev2")] e.1) = [])
    ∧ (RevisionCacheFirst.activate
        { caches := [("runtime-revision",
            [(createCacheKey "https://example.com/a.html" (.str "rev1"), Response.mk 200 "A1"),
             (createCacheKey "https://example.com/b.html" (.str "rev1"), Response.mk 200 "B1")])]
          trace := [] }).partition "runtime-revision"
      = [("https://example.com/a.html?__WB_REVISION__=rev1", Response.mk 200 "A1"),
         ("https://example.com/b.html?__WB_REVISION__=rev1", Response.mk 200 "B1")] := by
  decide

/-! ## C2: cache hit -/

/-- C2: when the `runtime-revision` partition has an entry under the request's cache key,
`_handle` resolves to exactly that stored response, the cache storage is unchanged, the
fetch-call counter is unchanged, and the only effect is the one cache read. -/
theorem handle_hit_serves_stored (runtimeManifest : Dict JsPrim) (net : Network)
    (request : Request) (w : World) (stored : Response)
    (hit : Dict.get? (w.partition "runtime-revision")
      (createCacheKey request.url (manifestGet runtimeManifest request.url)) = some stored) :
    (RevisionCacheFirst._handle runtimeManifest net request w).1 = .ok stored
      ∧ (RevisionCacheFirst._handle runtimeManifest net request w).2.caches = w.caches
      ∧ (RevisionCacheFirst._handle runtimeManifest net request w).2.fetchCalls = w.fetchCalls
      ∧ (RevisionCacheFirst._handle runtimeManifest net request w).2.trace
        = w.trace ++ [.cacheRead "runtime-revision"
            (createCacheKey request.url (manifestGet runtimeManifest request.url))] := by
  have hit2 : Dict.get? (w.partition RevisionCacheFirst.cacheName)
      (createCacheKey request.url (manifestGet runtimeManifest request.url)) = some stored := hit
  rcases RevisionCacheFirst.handle_cases runtimeManifest net request w with
    ⟨s, hs, heq⟩ | ⟨e, hs, _, _⟩ | ⟨r, hs, _, _⟩
  · rw [hit2] at hs
    cases hs
    rw [heq]
    refine ⟨rfl, rfl, ?_, rfl⟩
    simp [World.fetchCalls, List.filter_append, Effect.isFetch]
  · rw [hit2] at hs; cases hs
  · rw [hit2] at hs; cases hs

/-- Witness for C2: the partition holds `index.html` at its manifest revision `abc`; the
network would fail, yet the stored response is served. -/
theorem handle_hit_serves_stored_witness :
    (RevisionCacheFirst._handle [("https://example.com/index.html", .str "abc")]
        (fun _ => .error "offline") ⟨"https://example.com/index.html", "document"⟩
        { caches := [("runtime-revision",
            [("https://example.com/index.html?__WB_REVISION__=abc", ⟨200, "hello"⟩)])]
          trace := [] }).1 = .ok ⟨200, "hello"⟩ :=
  (handle_hit_serves_stored [("https://example.com/index.html", .str "abc")]
    (fun _ => .error "offline") ⟨"https://example.com/index.html", "document"⟩
    { caches := [("runtime-revision",
        [("https://example.com/index.html?__WB_REVISION__=abc", ⟨200, "hello"⟩)])]
      trace := [] } ⟨200, "hello"⟩ (by decide)).1

/-! ## C3: cache miss, fetch succeeds -/

/-- C3: when the request's cache key is not in the `runtime-revision` partition and the network
fetch returns a response (of any status), `_handle` fetches exactly once, resolves to that
response, and the partition becomes the previous partition plus one entry mapping the cache key
to a copy of the response; every other partition is unchanged. -/
theorem handle_miss_fetches_and_stores (runtimeManifest : Dict JsPrim) (net : Network)
    (request : Request) (w : World) (fetchResponse : Response)
    (miss : Dict.get? (w.partition "runtime-revision")
      (createCacheKey request.url (manifestGet runtimeManifest request.url)) = none)
    (fetched : net request = .ok fetchResponse) :
    (RevisionCacheFirst._handle runtimeManifest net request w).1 = .ok fetchResponse
      ∧ (RevisionCacheFirst._handle runtimeManifest net request w).2.fetchCalls
        = w.fetchCalls + 1
      ∧ (RevisionCacheFirst._handle runtimeManifest net request w).2.partition "runtime-revision"
        = w.partition "runtime-revision"
          ++ [(createCacheKey request.url (manifestGet runtimeManifest request.url),
              fetchResponse.clone)]
      ∧ fetchResponse.clone = fetchResponse
      ∧ (∀ name, name ≠ "runtime-revision" →
          (RevisionCacheFirst._handle runtimeManifest net request w).2.partition name
            = w.partition name)
      ∧ (RevisionCacheFirst._handle runtimeManifest net request w).2.trace
        = w.trace ++ [.cacheRead "runtime-revision"
              (createCacheKey request.url (manifestGet runtimeManifest request.url)),
            .fetch request.url,
            .cacheWrite "runtime-revision"
              (createCacheKey request.url (manifestGet runtimeManifest request.url))] := by
  have miss2 : Dict.get? (w.partition RevisionCacheFirst.cacheName)
      (createCacheKey request.url (manifestGet runtimeManifest request.url)) = none := miss
  rcases RevisionCacheFirst.handle_cases runtimeManifest net request w with
    ⟨s, hs, _⟩ | ⟨e, _, hnet, _⟩ | ⟨r, _, hnet, heq⟩
  · rw [miss2] at hs; cases hs
  · rw [fetched] at hnet; cases hnet
  · rw [fetched] at hnet
    cases hnet
    rw [heq]
    refine ⟨rfl, ?_, ?_, rfl, ?_, rfl⟩
    · simp [World.fetchCalls, List.filter_append, Effect.isFetch]
    · show (Dict.get? (Dict.set w.caches RevisionCacheFirst.cacheName _)
        RevisionCacheFirst.cacheName).getD [] = _
      rw [Dict.get?_set_self]
      exact Dict.set_of_absent _ _ _ miss2
    · intro name hname
      show (Dict.get? (Dict.set w.caches RevisionCacheFirst.cacheName _) name).getD [] = _
      have hname2 : name ≠ RevisionCacheFirst.cacheName := hname
      rw [Dict.get?_set_ne _ _ _ _ hname2]
      rfl

/-- Witness for C3: an empty cache storage and a network answering 404. -/
theorem handle_miss_fetches_and_stores_witness :
    (RevisionCacheFirst._handle [("https://example.com/index.html", .str "abc")]
        (fun _ => .ok ⟨404, "not found"⟩) ⟨"https://example.com/index.html", "document"⟩
        { caches := [], trace := [] }).2.partition "runtime-revision"
      = [("https://example.com/index.html?__WB_REVISION__=abc", ⟨404, "not found"⟩)] :=
  (handle_miss_fetches_and_stores [("https://example.com/index.html", .str "abc")]
    (fun _ => .ok ⟨404, "not found"⟩) ⟨"https://example.com/index.html", "document"⟩
    { caches := [], trace := [] } ⟨404, "not found"⟩ (by decide) rfl).2.2.1

/-! ## C4: cache miss, fetch fails -/

/-- C4: when the request's cache key is not in the `runtime-revision` partition and the network
fetch fails, `_handle` rejects with that same failure, the cache storage is identical to what
it was before the call, and fetch was called exactly once (no retry, no cache write). -/
theorem handle_miss_fetch_failure (runtimeManifest : Dict JsPrim) (net : Network)
    (request : Request) (w : World) (failure : String)
    (miss : Dict.get? (w.partition "runtime-revision")
      (createCacheKey request.url (manifestGet runtimeManifest request.url)) = none)
    (failed : net request = .error failure) :
    (RevisionCacheFirst._handle runtimeManifest net request w).1 = .error failure
      ∧ (RevisionCacheFirst._handle runtimeManifest net request w).2.caches = w.caches
      ∧ (RevisionCacheFirst._handle runtimeManifest net request w).2.fetchCalls
        = w.fetchCalls + 1
      ∧ (RevisionCacheFirst._handle runtimeManifest net request w).2.trace
        = w.trace ++ [.cacheRead "runtime-revision"
              (createCacheKey request.url (manifestGet runtimeManifest request.url)),
            .fetch request.url] := by
  have miss2 : Dict.get? (w.partition RevisionCacheFirst.cacheName)
      (createCacheKey request.url (manifestGet runtimeManifest request.url)) = none := miss
  rcases RevisionCacheFirst.handle_cases runtimeManifest net request w with
    ⟨s, hs, _⟩ | ⟨e, _, hnet, heq⟩ | ⟨r, _, hnet, _⟩
  · rw [miss2] at hs; cases hs
  · rw [failed] at hnet
    cases hnet
    rw [heq]
    refine ⟨rfl, rfl, ?_, rfl⟩
    simp [World.fetchCalls, List.filter_append, Effect.isFetch]
  · rw [failed] at hnet; cases hnet

/-- Witness for C4: a partition holding another key, and a network that is down. -/
theorem handle_miss_fetch_failure_witness :
    (RevisionCacheFirst._handle [("https://example.com/index.html", .str "abc")]
        (fun _ => .error "offline") ⟨"https://example.com/index.html", "document"⟩
        { caches := [("runtime-revision",
            [("https://example.com/index.html?__WB_REVISION__=old", ⟨200, "stale"⟩)])]
          trace := [] }).1 = .error "offline" :=
  (handle_miss_fetch_failure [("https://example.com/index.html", .str "abc")]
    (fun _ => .error "offline") ⟨"https://example.com/index.html", "document"⟩
    { caches := [("runtime-revision",
        [("https://example.com/index.html?__WB_REVISION__=old", ⟨200, "stale"⟩)])]
      trace := [] } "offline" (by decide) rfl).1

/-! ## C5: distinct revisions give distinct cache keys -/

theorem createCacheKey_ne_bare (url revision : String) (h : revision ≠ "") :
    createCacheKey url (.str revision) ≠ url := by
  intro heq
  have ht : (JsPrim.str revision).truthy = true := by simp [JsPrim.truthy, h]
  simp only [createCacheKey, ht, if_true, JsPrim.toStr] at heq
  have hlen := congrArg String.length heq
  by_cases hq : url.data.contains '?' = true
  · simp only [hq, if_true, String.length_append] at hlen
    have : ("&" : String).length = 1 := by decide
    omega
  · simp only [hq, String.length_append] at hlen
    have : ("?" : String).length = 1 := by decide
    simp at hlen
    omega

/-- C5: for every URL and every two revision strings `r1 ≠ r2` (the empty revision and URLs
with a query string included), the cache key computed for `(url, r1)` differs from the one
computed for `(url, r2)`. -/
theorem createCacheKey_revision_injective (url r1 r2 : String) (h : r1 ≠ r2) :
    createCacheKey url (.str r1) ≠ createCacheKey url (.str r2) := by
  by_cases h1 : r1 = ""
  · have h2 : r2 ≠ "" := fun e => h (h1.trans e.symm)
    subst h1
    have hbare : createCacheKey url (.str "") = url := by simp [createCacheKey, JsPrim.truthy]
    rw [hbare]
    exact fun e => createCacheKey_ne_bare url r2 h2 e.symm
  · by_cases h2 : r2 = ""
    · subst h2
      have hbare : createCacheKey url (.str "") = url := by simp [createCacheKey, JsPrim.truthy]
      rw [hbare]
      exact createCacheKey_ne_bare url r1 h1
    · intro heq
      have ht1 : (JsPrim.str r1).truthy = true := by simp [JsPrim.truthy, h1]
      have ht2 : (JsPrim.str r2).truthy = true := by simp [JsPrim.truthy, h2]
      simp only [createCacheKey, ht1, ht2, if_true, JsPrim.toStr] at heq
      exact h (string_append_left_cancel _ _ _ heq)

/-- Witness for C5: a URL that already has a query string, the empty revision against `v2`. -/
theorem createCacheKey_revision_injective_witness :
    createCacheKey "https://example.com/a.html?x=1" (.str "")
      ≠ createCacheKey "https://example.com/a.html?x=1" (.str "v2") :=
  createCacheKey_revision_injective "https://example.com/a.html?x=1" "" "v2" (by decide)

/-! ## C7 and C8: routing -/

/-- C7: a request whose URL is a key of `runtimeManifest` and whose destination is `font` or
`image` matches both rules; dispatch invokes the `RevisionCacheFirst` handler and only it: the
outcome is that of `RevisionCacheFirst._handle`, the effects performed after the handler is
entered are reads and writes of the `runtime-revision` partition under the request's cache
key and fetches of the request (the `CacheFirst` handler is never entered), and every
other partition is unchanged. -/
theorem dispatch_first_match_wins (sw : Worker) (request : Request) (w : World)
    (inManifest : Dict.has sw.runtimeManifest request.url = true)
    (isClass : request.destination = "font" ∨ request.destination = "image") :
    (routes sw.runtimeManifest).map (fun r => (r.matcher request, r.handler))
        = [(true, .revisionCacheFirst), (true, .cacheFirst)]
      ∧ dispatch sw request w
        = (some (RevisionCacheFirst._handle sw.runtimeManifest sw.net request
              { w with trace := w.trace ++ [.handle .revisionCacheFirst] }).1,
            (RevisionCacheFirst._handle sw.runtimeManifest sw.net request
              { w with trace := w.trace ++ [.handle .revisionCacheFirst] }).2)
      ∧ (∃ es, (dispatch sw request w).2.trace
            = w.trace ++ Effect.handle .revisionCacheFirst :: es
          ∧ ∀ e ∈ es,
              e = .cacheRead "runtime-revision"
                  (createCacheKey request.url (manifestGet sw.runtimeManifest request.url))
              ∨ e = .fetch request.url
              ∨ e = .cacheWrite "runtime-revision"
                  (createCacheKey request.url (manifestGet sw.runtimeManifest request.url)))
      ∧ ∀ name, name ≠ "runtime-revision" →
          (dispatch sw request w).2.partition name = w.partition name := by
  have hclass : request.destination ∈ cacheSet := by
    rcases isClass with h | h <;> rw [h] <;> decide
  have hdisp : dispatch sw request w
      = (some (RevisionCacheFirst._handle sw.runtimeManifest sw.net request
            { w with trace := w.trace ++ [.handle .revisionCacheFirst] }).1,
          (RevisionCacheFirst._handle sw.runtimeManifest sw.net request
            { w with trace := w.trace ++ [.handle .revisionCacheFirst] }).2) := by
    simp [dispatch, routes, registerRoute, findMatchingRoute, inManifest, Strategy.run]
  refine ⟨?_, hdisp, ?_, ?_⟩
  · simp [routes, registerRoute, inManifest, hclass]
  · rw [hdisp]
    rcases RevisionCacheFirst.handle_cases sw.runtimeManifest sw.net request
        { w with trace := w.trace ++ [.handle .revisionCacheFirst] } with
      ⟨s, _, heq⟩ | ⟨e, _, _, heq⟩ | ⟨r, _, _, heq⟩
    · rw [heq]
      exact ⟨[.cacheRead RevisionCacheFirst.cacheName
          (createCacheKey request.url (manifestGet sw.runtimeManifest request.url))],
        by simp, by simp [RevisionCacheFirst.cacheName]⟩
    · rw [heq]
      exact ⟨[.cacheRead RevisionCacheFirst.cacheName
          (createCacheKey request.url (manifestGet sw.runtimeManifest request.url)),
          .fetch request.url],
        by simp, by simp [RevisionCacheFirst.cacheName]⟩
    · rw [heq]
      exact ⟨[.cacheRead RevisionCacheFirst.cacheName
          (createCacheKey request.url (manifestGet sw.runtimeManifest request.url)),
          .fetch request.url,
          .cacheWrite RevisionCacheFirst.cacheName
          (createCacheKey request.url (manifestGet sw.runtimeManifest request.url))],
        by simp, by simp [RevisionCacheFirst.cacheName]⟩
  · intro name hname
    have hname2 : name ≠ RevisionCacheFirst.cacheName := hname
    rw [hdisp]
    rcases RevisionCacheFirst.handle_cases sw.runtimeManifest sw.net request
        { w with trace := w.trace ++ [.handle .revisionCacheFirst] } with
      ⟨s, _, heq⟩ | ⟨e, _, _, heq⟩ | ⟨r, _, _, heq⟩
    · rw [heq]; rfl
    · rw [heq]; rfl
    · rw [heq]
      show (Dict.get? (Dict.set w.caches RevisionCacheFirst.cacheName _) name).getD [] = _
      rw [Dict.get?_set_ne _ _ _ _ hname2]
      rfl

/-- Witness for C7: an image listed in the manifest, an empty cache storage. -/
theorem dispatch_first_match_wins_witness :
    (dispatch ⟨[("https://example.com/img/logo.png", .str "r1")], "workbox-runtime",
        fun _ => .ok ⟨200, "png"⟩⟩ ⟨"https://example.com/img/logo.png", "image"⟩
        { caches := [], trace := [] }).2.partition "workbox-runtime" = [] :=
  (dispatch_first_match_wins ⟨[("https://example.com/img/logo.png", .str "r1")],
      "workbox-runtime", fun _ => .ok ⟨200, "png"⟩⟩
    ⟨"https://example.com/img/logo.png", "image"⟩ { caches := [], trace := [] }
    (by decide) (Or.inr rfl)).2.2.2 "workbox-runtime" (by decide)

/-- C8: a request whose URL is not a key of `runtimeManifest` and whose destination is neither
`font` nor `image` is reported unhandled, and the world is left exactly as it was: no handler
is entered, no cache is read or written, no fetch is issued. -/
theorem dispatch_unhandled (sw : Worker) (request : Request) (w : World)
    (notInManifest : Dict.has sw.runtimeManifest request.url = false)
    (notClass : request.destination ≠ "font" ∧ request.destination ≠ "image") :
    dispatch sw request w = (none, w) := by
  have hclass : request.destination ∉ cacheSet := by
    simp [cacheSet, notClass.1, notClass.2]
  simp [dispatch, routes, registerRoute, findMatchingRoute, notInManifest, hclass]

/-- Witness for C8: a script request for a URL the manifest does not list. -/
theorem dispatch_unhandled_witness :
    dispatch ⟨[("https://example.com/index.html", .str "abc")], "workbox-runtime",
        fun _ => .ok ⟨200, "js"⟩⟩ ⟨"https://cdn.example.org/lib.js", "script"⟩
        { caches := [], trace := [] }
      = (none, { caches := [], trace := [] }) :=
  dispatch_unhandled ⟨[("https://example.com/index.html", .str "abc")], "workbox-runtime",
      fun _ => .ok ⟨200, "js"⟩⟩ ⟨"https://cdn.example.org/lib.js", "script"⟩
    { caches := [], trace := [] } (by decide) (by decide)

/-! ## C10: the merge of `generate-all-maps.js` -/

theorem Dict.get?_eq_none_of_not_has {V : Type} (m : Dict V) (key : String)
    (h : Dict.has m key = false) : Dict.get? m key = none := by
  simpa [Dict.has] using h

theorem get?_foldl_assign {V : Type} (source : Dict V) (ks : List String) (target : Dict V)
    (key : String) :
    Dict.get? (ks.foldl (fun t k =>
        match Dict.get? source k with
        | some v => Dict.set t k v
        | none => t) target) key
      = if key ∈ ks then
          (match Dict.get? source key with
            | some v => some v
            | none => Dict.get? target key)
        else Dict.get? target key := by
  induction ks generalizing target with
  | nil => simp
  | cons a ks ih =>
    rw [List.foldl_cons, ih]
    by_cases hak : a = key
    · subst hak
      cases hsa : Dict.get? source a with
      | none => simp
      | some v => simp [Dict.get?_set_self]
    · have hka : key ≠ a := fun e => hak e.symm
      have hstep : Dict.get? (match Dict.get? source a with
          | some v => Dict.set target a v
          | none => target) key = Dict.get? target key := by
        cases Dict.get? source a with
        | none => rfl
        | some v => exact Dict.get?_set_ne _ _ _ _ hka
      rw [hstep]
      simp [hka]

/-- After `Object.assign(target, source)` a key holds the source's value when the source has
the key, and the target's previous value otherwise. -/
theorem get?_objectAssign {V : Type} (target source : Dict V) (key : String) :
    Dict.get? (objectAssign target source) key
      = match Dict.get? source key with
        | some v => some v
        | none => Dict.get? target key := by
  unfold objectAssign
  rw [get?_foldl_assign]
  by_cases hk : key ∈ Dict.keys source
  · simp [hk]
  · have hnone : Dict.get? source key = none := by
      apply Dict.get?_eq_none_of_not_has
      cases hh : Dict.has source key with
      | false => rfl
      | true => exact absurd ((Dict.mem_keys_iff source key).mpr hh) hk
    simp [hk, hnone]

theorem get?_assignIfTruthy_of_absent {V : Type} (out : Dict V) (r : Option (Dict V))
    (key : String) (h : ∀ d, r = some d → Dict.has d key = false) :
    Dict.get? (assignIfTruthy out r) key = Dict.get? out key := by
  cases r with
  | none => rfl
  | some d =>
    simp only [assignIfTruthy]
    rw [get?_objectAssign, Dict.get?_eq_none_of_not_has d key (h d rfl)]

theorem get?_foldl_assignIfTruthy_of_absent {V : Type} (rs : List (Option (Dict V)))
    (out : Dict V) (key : String) (h : ∀ d, some d ∈ rs → Dict.has d key = false) :
    Dict.get? (rs.foldl assignIfTruthy out) key = Dict.get? out key := by
  induction rs generalizing out with
  | nil => rfl
  | cons r rs ih =>
    rw [List.foldl_cons, ih _ (fun d hd => h d (List.mem_cons_of_mem _ hd))]
    exact get?_assignIfTruthy_of_absent out r key
      (fun d hd => h d (by rw [hd]; exact List.mem_cons_self _ _))

theorem has_foldl_assignIfTruthy {V : Type} (rs : List (Option (Dict V))) (out : Dict V)
    (key : String) :
    Dict.has (rs.foldl assignIfTruthy out) key = true
      ↔ Dict.has out key = true ∨ ∃ d, some d ∈ rs ∧ Dict.has d key = true := by
  induction rs generalizing out with
  | nil => simp
  | cons r rs ih =>
    rw [List.foldl_cons, ih]
    have hstep : Dict.has (assignIfTruthy out r) key = true
        ↔ Dict.has out key = true ∨ ∃ d, r = some d ∧ Dict.has d key = true := by
      cases r with
      | none => simp [assignIfTruthy]
      | some d =>
        simp only [assignIfTruthy, Dict.has, get?_objectAssign]
        cases hd : Dict.get? d key <;> simp [hd]
    rw [hstep]
    constructor
    · rintro ((h | ⟨d, hd, hk⟩) | ⟨d, hd, hk⟩)
      · exact Or.inl h
      · exact Or.inr ⟨d, by rw [hd]; exact List.mem_cons_self _ _, hk⟩
      · exact Or.inr ⟨d, List.mem_cons_of_mem _ hd, hk⟩
    · rintro (h | ⟨d, hd, hk⟩)
      · exact Or.inl (Or.inl h)
      · rcases List.mem_cons.mp hd with heq | hmem
        · exact Or.inl (Or.inr ⟨d, heq.symm, hk⟩)
        · exact Or.inr ⟨d, hmem, hk⟩

theorem generateAllMaps_eq_foldl {Body V : Type} (env : MapsEnv Body V) :
    generateAllMaps env = (imageDataResults env).foldl assignIfTruthy [] := by
  simp only [generateAllMaps, imageDataResults, sources, List.foldl_cons, List.foldl_nil,
    List.flatMap_cons, List.flatMap_nil, List.append_nil, List.foldl_append, List.foldl_map]
  rfl

/-- C10: the key set of the mapping `generate-all-maps.js` writes is exactly the union of the
key sets of the image-data results (entries with no image data contribute nothing), and a key
produced by an entry keeps that entry's value whenever no later entry produces the same
key. -/
theorem generateAllMaps_merges (Body V : Type) (env : MapsEnv Body V) :
    (∀ key, key ∈ Dict.keys (generateAllMaps env)
        ↔ ∃ d, some d ∈ imageDataResults env ∧ key ∈ Dict.keys d)
    ∧ (∀ (pre post : List (Option (Dict V))) (d : Dict V) (key : String) (val : V),
        imageDataResults env = pre ++ some d :: post →
        Dict.get? d key = some val →
        (∀ d2, some d2 ∈ post → key ∉ Dict.keys d2) →
        Dict.get? (generateAllMaps env) key = some val) := by
  constructor
  · intro key
    rw [Dict.mem_keys_iff, generateAllMaps_eq_foldl, has_foldl_assignIfTruthy]
    simp [Dict.has, Dict.get?, Dict.mem_keys_iff]
  · intro pre post d key val hres hget hlater
    rw [generateAllMaps_eq_foldl, hres, List.foldl_append, List.foldl_cons,
      get?_foldl_assignIfTruthy_of_absent]
    · simp only [assignIfTruthy]
      rw [get?_objectAssign, hget]
    · intro d2 hd2
      cases hh : Dict.has d2 key with
      | false => rfl
      | true => exact absurd ((Dict.mem_keys_iff d2 key).mpr hh) (hlater d2 hd2)

/-- Witness for C10: one adventure and one book, the book repeating the key `shared` of the
adventure and adding the key `phb`; the adventure's own key `lmop` keeps its value. -/
theorem generateAllMaps_merges_witness :
    Dict.get? (generateAllMaps
        ({ readIndex := fun _ prop => if prop = "adventure" then [⟨"LMoP"⟩] else [⟨"PHB"⟩]
           readBody := fun path => path
           toLowerCase := fun s => s
           getImageData := fun prop _ _ =>
             if prop = "adventure" then some [("lmop", 1), ("shared", 2)]
             else some [("shared", 3), ("phb", 4)] } : MapsEnv String Nat)) "lmop" = some 1 :=
  (generateAllMaps_merges String Nat
    { readIndex := fun _ prop => if prop = "adventure" then [⟨"LMoP"⟩] else [⟨"PHB"⟩]
      readBody := fun path => path
      toLowerCase := fun s => s
      getImageData := fun prop _ _ =>
        if prop = "adventure" then some [("lmop", 1), ("shared", 2)]
        else some [("shared", 3), ("phb", 4)] }).2
    [] [some [("shared", 3), ("phb", 4)]] [("lmop", 1), ("shared", 2)] "lmop" 1
    (by decide) (by decide)
    (fun d2 hd2 => by
      have h2 : d2 = [("shared", 3), ("phb", 4)] := by simpa using hd2
      subst h2
      decide)

end SW
